import Mathlib

/-
Verification development for the CluesWord repository.

Shallow embedding of the game core:
  * src/js/game-state.js   — guess evaluation and the puzzle state machine
  * the Utils module       — scoring, date arithmetic, daily puzzle index
  * the StorageManager     — aggregate statistics update (updateStats)

Modeling conventions:
  * JS strings that are inspected character by character (guesses, target
    words) are modeled as List Char; strings used only for identity or
    messages (puzzle ids, categories, dates, error text) stay String.
  * JS Date values are modeled as integer milliseconds since the JS epoch.
  * A JS Set is modeled as a duplicate-free list in insertion order.
  * Persistence side effects (saveState, updateStats, addCompletedDaily /
    addPlayedPuzzle, saveStats) are modeled as Bool flags in each
    operation's result recording whether the corresponding write happened.
-/

/-- Status of one evaluated letter, as produced by evaluateGuess in
src/js/game-state.js (the strings 'correct', 'wrongPosition', 'wrong'). -/
inductive LStatus where
  | correct
  | wrongPosition
  | wrong
deriving DecidableEq

/-- One per-character feedback entry: the object literal
{ letter, status, position } built by evaluateGuess. -/
structure LEntry where
  letter : Char
  status : LStatus
  position : Nat
deriving DecidableEq

/-- Utils.MAX_CLUES = 3. -/
def MAX_CLUES : Nat := 3

/-- Utils.PENALTY_PER_WRONG_GUESS = 5. -/
def PENALTY_PER_WRONG_GUESS : Int := 5

/-- Utils.BASE_SCORES.ONE_CLUE. -/
def BASE_SCORE_ONE_CLUE : Int := 100

/-- Utils.BASE_SCORES.TWO_CLUES. -/
def BASE_SCORE_TWO_CLUES : Int := 85

/-- Utils.BASE_SCORES.THREE_CLUES. -/
def BASE_SCORE_THREE_CLUES : Int := 70

/-- Utils.BASE_SCORES.ALL_CLUES. -/
def BASE_SCORE_ALL_CLUES : Int := 50

/-- Utils.calculateScore(cluesUsed, totalTries): switch on cluesUsed for the
base score, subtract 5 per wrong guess (max(0, totalTries - 1) of them),
floor the result at 10. -/
def calculateScore (cluesUsed : Nat) (totalTries : Int) : Int :=
  let baseScore : Int :=
    match cluesUsed with
    | 1 => BASE_SCORE_ONE_CLUE
    | 2 => BASE_SCORE_TWO_CLUES
    | 3 => BASE_SCORE_THREE_CLUES
    | _ => BASE_SCORE_ALL_CLUES
  let wrongGuesses : Int := max 0 (totalTries - 1)
  let penalty : Int := wrongGuesses * PENALTY_PER_WRONG_GUESS
  max 10 (baseScore - penalty)

/-- Utils.daysBetween(date1, date2) with dates as integer milliseconds:
Math.floor(Math.abs((d2 - d1) / oneDay)) where oneDay = 24*60*60*1000. -/
def daysBetween (d1 d2 : Int) : Nat :=
  (d2 - d1).natAbs / 86400000

/-- Utils.getDailyPuzzleIndex(totalPuzzles): daysBetween(LAUNCH_DATE,
getTodayMidnight()) % totalPuzzles.  The launch date and the current
midnight are supplied as explicit millisecond values. -/
def getDailyPuzzleIndex (launchDate todayMidnight : Int) (totalPuzzles : Nat) : Nat :=
  daysBetween launchDate todayMidnight % totalPuzzles

/-- Specification-side definition, used only as the refinement target of
claim C9: the number of whole calendar days elapsed from the epoch to a
(not earlier) day, both modeled as integer milliseconds. -/
def specWholeDaysElapsed (epoch day : Int) : Nat :=
  (day - epoch).toNat / 86400000

/- ===================== guess evaluator (evaluateGuess) ===================== -/

/-- Model of the JS regex character class [\s-] used by
word.replace(/[\s-]/g, ''): whitespace or hyphen (word separators). -/
def isSepChar (c : Char) : Bool := c.isWhitespace || c = '-'

/-- Removal of word separators: word.replace(/[\s-]/g, '') on a char list. -/
def stripSeparators (l : List Char) : List Char :=
  l.filter (fun c => !(isSepChar c))

/-- Model of String.prototype.trim on a char list: drop whitespace from
both ends. -/
def jsTrim (l : List Char) : List Char :=
  ((l.dropWhile Char.isWhitespace).reverse.dropWhile Char.isWhitespace).reverse

/-- The letters-only uppercased form of a stored word:
word.toUpperCase().replace(/[\s-]/g, '') as a char list. -/
def lettersOnly (word : String) : List Char :=
  stripSeparators (word.toList.map Char.toUpper)

/-- Normalization applied by submitGuess: guess.toUpperCase().trim(). -/
def normalizeGuess (guess : String) : List Char :=
  jsTrim (guess.toList.map Char.toUpper)

/-- Pass 1 of evaluateGuess: walk guess and targetCopy in lockstep from
index i; an exact positional match produces a 'correct' entry and consumes
the target letter (sets the copy cell to null, modeled as none); every
other cell stays unmarked (none) with its target letter intact (some t).
Returns (partial result array, targetCopy after consumption).  When the
guess is longer than the target the JS comparison against undefined fails,
so extra guess cells stay unmarked; when shorter, the target tail survives
unconsumed. -/
def pass1 : Nat → List Char → List Char → List (Option LEntry) × List (Option Char)
  | _, [], ts => ([], ts.map some)
  | i, _ :: gs, [] =>
    let r := pass1 (i + 1) gs []
    (none :: r.1, r.2)
  | i, g :: gs, t :: ts =>
    let r := pass1 (i + 1) gs ts
    if g = t then (some ⟨g, LStatus.correct, i⟩ :: r.1, none :: r.2)
    else (none :: r.1, some t :: r.2)

/-- Model of targetCopy.indexOf(letter) followed by targetCopy[idx] = null:
find the first unconsumed occurrence of c (a cell equal to some c; consumed
cells are none and never match) and consume it; none when indexOf returns
-1. -/
def consume (c : Char) : List (Option Char) → Option (List (Option Char))
  | [] => none
  | t :: ts =>
    if t = some c then some (none :: ts)
    else
      match consume c ts with
      | some ts' => some (t :: ts')
      | none => none

/-- Pass 2 of evaluateGuess: walk the guess from index i together with the
partial result array rs; an already-marked cell is kept; otherwise the
remaining target letters are searched left-to-right for the guess letter —
on a find the entry is 'wrongPosition' and the occurrence is consumed,
otherwise the entry is 'wrong'. -/
def pass2 : Nat → List Char → List (Option LEntry) → List (Option Char) → List LEntry
  | _, [], _, _ => []
  | i, g :: gs, rs, tc =>
    match rs.headD none with
    | some e => e :: pass2 (i + 1) gs rs.tail tc
    | none =>
      match consume g tc with
      | some tc' => ⟨g, LStatus.wrongPosition, i⟩ :: pass2 (i + 1) gs rs.tail tc'
      | none => ⟨g, LStatus.wrong, i⟩ :: pass2 (i + 1) gs rs.tail tc

/-- Both passes of evaluateGuess on already-split char lists. -/
def evaluateGuessCore (guess target : List Char) : List LEntry :=
  let p := pass1 0 guess target
  pass2 0 guess p.1 p.2

/-- GameState.evaluateGuess on char lists: uppercases the guess, uppercases
and strips separators from the target, then runs the two passes (the exact
body of evaluateGuess with .split('') elided by working on lists). -/
def evalOnLists (guess target : List Char) : List LEntry :=
  evaluateGuessCore (guess.map Char.toUpper)
    (stripSeparators (target.map Char.toUpper))

/-- GameState.evaluateGuess(guess, target) on JS strings. -/
def evaluateGuess (guess target : String) : List LEntry :=
  evalOnLists guess.toList target.toList

/- ===================== occurrence counters for C1 ===================== -/

/-- Number of occurrences of the character c in a char list. -/
def cntChar (c : Char) : List Char → Nat
  | [] => 0
  | x :: xs => (if x = c then 1 else 0) + cntChar c xs

/-- Number of unconsumed occurrences of c in a targetCopy. -/
def cntOptChar (c : Char) : List (Option Char) → Nat
  | [] => 0
  | t :: ts => (if t = some c then 1 else 0) + cntOptChar c ts

/-- Number of evaluation entries for letter c whose status is not 'wrong'. -/
def cntNonWrong (c : Char) : List LEntry → Nat
  | [] => 0
  | e :: es =>
    (if e.letter = c ∧ e.status ≠ LStatus.wrong then 1 else 0) + cntNonWrong c es

/-- Number of evaluation entries for letter c whose status is 'wrong'. -/
def cntWrong (c : Char) : List LEntry → Nat
  | [] => 0
  | e :: es =>
    (if e.letter = c ∧ e.status = LStatus.wrong then 1 else 0) + cntWrong c es

/-- Number of positions where guess and target carry the same letter and
that letter is c (the pass-1 matches for c). -/
def matchCnt (c : Char) : List Char → List Char → Nat
  | g :: gs, t :: ts => (if g = t ∧ g = c then 1 else 0) + matchCnt c gs ts
  | _, _ => 0

/-- Along the pass-2 traversal of guess/partial-result: how many marked
cells carry a non-'wrong' entry for letter c. -/
def markedNonWrong (c : Char) : List Char → List (Option LEntry) → Nat
  | [], _ => 0
  | _ :: gs, rs =>
    (match rs.headD none with
     | some e => if e.letter = c ∧ e.status ≠ LStatus.wrong then 1 else 0
     | none => 0) + markedNonWrong c gs rs.tail

/-- Along the pass-2 traversal: how many marked cells carry a 'wrong' entry
for letter c (zero for a pass-1 result, whose entries are all 'correct'). -/
def markedWrong (c : Char) : List Char → List (Option LEntry) → Nat
  | [], _ => 0
  | _ :: gs, rs =>
    (match rs.headD none with
     | some e => if e.letter = c ∧ e.status = LStatus.wrong then 1 else 0
     | none => 0) + markedWrong c gs rs.tail

/-- Along the pass-2 traversal: how many still-unmarked guess cells carry
the letter c. -/
def unmarkedCnt (c : Char) : List Char → List (Option LEntry) → Nat
  | [], _ => 0
  | g :: gs, rs =>
    (match rs.headD none with
     | some _ => 0
     | none => if g = c then 1 else 0) + unmarkedCnt c gs rs.tail

/-- Pointwise letter agreement between the guess and the marked entries of
a partial result array, along the pass-2 traversal. -/
def AlignedLetters : List Char → List (Option LEntry) → Prop
  | [], _ => True
  | g :: gs, rs =>
    (∀ e, rs.headD none = some e → e.letter = g) ∧ AlignedLetters gs rs.tail

/-- Pointwise position agreement between indices from i and the marked
entries of a partial result array, along the pass-2 traversal. -/
def AlignedPos : Nat → List Char → List (Option LEntry) → Prop
  | _, [], _ => True
  | i, _ :: gs, rs =>
    (∀ e, rs.headD none = some e → e.position = i) ∧ AlignedPos (i + 1) gs rs.tail

/-- Order-preserving enumeration of positions i, i+1, ..., i+n-1, used to
state that evaluation entries appear in guess order. -/
def posRange : Nat → Nat → List Nat
  | _, 0 => []
  | i, n + 1 => i :: posRange (i + 1) n

/- ===================== puzzle state machine ===================== -/

/-- Game status: 'in-progress' or 'won' (no lost state, guessing is
unlimited). -/
inductive GStatus where
  | inProgress
  | won
deriving DecidableEq

/-- Immutable puzzle content record (data files / getDefaultPuzzles). -/
structure Puzzle where
  id : String
  category : String
  word : String
  clues : List String
  factoid : String
deriving DecidableEq

/-- The Attempt State created by createInitialState and mutated by
submitGuess.  wrongPositionLetters is a JS Set, modeled as a duplicate-free
list in insertion order; the persisted shape stores it as a plain list. -/
structure AttemptState where
  puzzleId : String
  date : String
  guesses : List (List Char)
  cluesRevealed : Nat
  correctPositions : List Nat
  wrongPositionLetters : List Char
  status : GStatus
  score : Int
deriving DecidableEq

/-- Result of one submitGuess call: the returned object plus the state it
leaves behind and flags for each persistence side effect (saveState,
StorageManager.updateStats, StorageManager.addCompletedDaily /
addPlayedPuzzle). -/
structure SubmitOutcome where
  success : Bool
  error : Option String
  isCorrect : Bool
  evaluation : List LEntry
  state : AttemptState
  saved : Bool
  statsUpdated : Bool
  trackedPuzzle : Bool
deriving DecidableEq

/-- JS Set.prototype.add on the insertion-order list model: append the
element only when it is not yet present. -/
def setAdd (l : List Char) (c : Char) : List Char :=
  if c ∈ l then l else l ++ [c]

/-- new Set(array): fold the list through setAdd, deduplicating while
keeping first-occurrence order. -/
def jsSetOfList (l : List Char) : List Char :=
  l.foldl setAdd []

/-- The forEach over the evaluation in submitGuess's wrong-guess branch:
push each 'correct' index not already present into correctPositions, add
each 'wrongPosition' letter to wrongPositionLetters.  The list argument is
the evaluation paired with its indices (JS forEach index). -/
def updateFromEvaluation :
    List Nat → List Char → List (Nat × LEntry) → List Nat × List Char
  | cp, wpl, [] => (cp, wpl)
  | cp, wpl, (idx, item) :: rest =>
    let cp' := if item.status = LStatus.correct ∧ idx ∉ cp then cp ++ [idx] else cp
    let wpl' := if item.status = LStatus.wrongPosition then setAdd wpl item.letter else wpl
    updateFromEvaluation cp' wpl' rest

/-- GameState.createInitialState(puzzle, date): date falls back to today's
date string when null. -/
def createInitialState (puzzle : Puzzle) (today : String) (date : Option String) :
    AttemptState :=
  { puzzleId := puzzle.id
    date := date.getD today
    guesses := []
    cluesRevealed := 1
    correctPositions := []
    wrongPositionLetters := []
    status := GStatus.inProgress
    score := 0 }

/-- GameState.initialize(puzzle, savedState, daily): restore the saved
state when it exists and its puzzleId matches (turning the persisted
wrong-position-letters list back into a set), otherwise create a fresh
state and persist it immediately.  The Bool records whether saveState was
called; today supplies Utils.getDateString(). -/
def initGame (puzzle : Puzzle) (savedState : Option AttemptState) (daily : Bool)
    (today : String) : AttemptState × Bool :=
  match savedState with
  | some st =>
    if st.puzzleId = puzzle.id then
      ({ st with wrongPositionLetters := jsSetOfList st.wrongPositionLetters }, false)
    else
      (createInitialState puzzle today (if daily then some today else none), true)
  | none =>
    (createInitialState puzzle today (if daily then some today else none), true)

/-- The early-return failure outcomes of submitGuess: state untouched, no
persistence write of any kind. -/
def failOutcome (state : AttemptState) (msg : String) : SubmitOutcome :=
  { success := false
    error := some msg
    isCorrect := false
    evaluation := []
    state := state
    saved := false
    statsUpdated := false
    trackedPuzzle := false }

/-- The winning branch of submitGuess: push the guess, set status 'won',
score from calculateScore(cluesRevealed, guesses.length), correctPositions
to the full index range, then updateStats, completed/played tracking and
saveState. -/
def winOutcome (puzzle : Puzzle) (state : AttemptState) (n : List Char) :
    SubmitOutcome :=
  { success := true
    error := none
    isCorrect := true
    evaluation := evalOnLists n (lettersOnly puzzle.word)
    state :=
      { state with
        guesses := state.guesses ++ [n]
        status := GStatus.won
        score := calculateScore state.cluesRevealed
          ((state.guesses ++ [n]).length : Int)
        correctPositions := List.range (lettersOnly puzzle.word).length }
    saved := true
    statsUpdated := true
    trackedPuzzle := true }

/-- The wrong-guess branch of submitGuess: push the guess, merge the
evaluation into correctPositions / wrongPositionLetters, reveal the next
clue while below MAX_CLUES, then saveState. -/
def wrongOutcome (puzzle : Puzzle) (state : AttemptState) (n : List Char) :
    SubmitOutcome :=
  let evaluation := evalOnLists n (lettersOnly puzzle.word)
  let upd := updateFromEvaluation state.correctPositions
    state.wrongPositionLetters evaluation.enum
  { success := true
    error := none
    isCorrect := false
    evaluation := evaluation
    state :=
      { state with
        guesses := state.guesses ++ [n]
        correctPositions := upd.1
        wrongPositionLetters := upd.2
        cluesRevealed :=
          if state.cluesRevealed < MAX_CLUES then state.cluesRevealed + 1
          else state.cluesRevealed }
    saved := true
    statsUpdated := false
    trackedPuzzle := false }

/-- GameState.submitGuess(guess).  The NotInitialized guard is outside this
model (puzzle and state are always supplied); the branch order follows the
source: AlreadyWon, then length validation, then the duplicate check, then
evaluation with the win / wrong-guess split.  Which persisted slot
saveState targets (daily vs quick play) is not modeled, only that the
write happens. -/
def submitGuess (puzzle : Puzzle) (state : AttemptState) (guess : String) :
    SubmitOutcome :=
  if state.status = GStatus.won then
    failOutcome state "Game already completed"
  else if (normalizeGuess guess).length ≠ (lettersOnly puzzle.word).length then
    failOutcome state
      ("Guess must be " ++ toString (lettersOnly puzzle.word).length ++ " letters")
  else if normalizeGuess guess ∈ state.guesses then
    failOutcome state "Already guessed"
  else if normalizeGuess guess = lettersOnly puzzle.word then
    winOutcome puzzle state (normalizeGuess guess)
  else
    wrongOutcome puzzle state (normalizeGuess guess)

/-- Folding a sequence of submitGuess calls over a state (each call's
resulting state feeds the next call). -/
def playGuesses (puzzle : Puzzle) (state : AttemptState) : List String → AttemptState
  | [] => state
  | g :: gs => playGuesses puzzle (submitGuess puzzle state g).state gs

/- ===================== statistics (StorageManager) ===================== -/

/-- Per-category entry of stats.categoryStats: { played, totalScore }. -/
structure CatStat where
  played : Nat
  totalScore : Int
deriving DecidableEq

/-- The stats record of StorageManager.getStats (clueDistribution keys 1,2,3
flattened into three fields; categoryStats as an association list keyed by
category name). -/
structure Stats where
  played : Nat
  won : Nat
  currentStreak : Nat
  maxStreak : Nat
  totalScore : Int
  bestScore : Int
  lastPlayedDate : Option String
  clueDist1 : Nat
  clueDist2 : Nat
  clueDist3 : Nat
  categoryStats : List (String × CatStat)
deriving DecidableEq

/-- Lookup in the categoryStats association list. -/
def lookupCat : List (String × CatStat) → String → Option CatStat
  | [], _ => none
  | (c, st) :: rest, cat => if c = cat then some st else lookupCat rest cat

/-- The category-stats update in updateStats: create the {played: 0,
totalScore: 0} entry when missing, then increment played and add the
score. -/
def updateCat : List (String × CatStat) → String → Int → List (String × CatStat)
  | [], cat, score => [(cat, ⟨1, score⟩)]
  | (c, st) :: rest, cat, score =>
    if c = cat then (c, ⟨st.played + 1, st.totalScore + score⟩) :: rest
    else (c, st) :: updateCat rest cat score

/-- The clue-distribution update: stats.clueDistribution[cluesUsed] += 1
when the key (1, 2 or 3) exists, otherwise nothing. -/
def bumpClueDist (s : Stats) (cluesUsed : Nat) : Stats :=
  match cluesUsed with
  | 1 => { s with clueDist1 := s.clueDist1 + 1 }
  | 2 => { s with clueDist2 := s.clueDist2 + 1 }
  | 3 => { s with clueDist3 := s.clueDist3 + 1 }
  | _ => s

/-- StorageManager.updateStats(cluesUsed, score, category, won) of the
synchronous local store.  The clock enters through today =
Utils.getDateString() and yesterday = Utils.getDateString(now - 1 day), so
Utils.isYesterday(d) is d = yesterday and Utils.isToday(d) is d = today.
The Bool records that saveStats persisted the result (always). -/
def updateStats (stats : Stats) (today yesterday : String) (cluesUsed : Nat)
    (score : Int) (category : String) (won : Bool) : Stats × Bool :=
  let s1 := { stats with played := stats.played + 1 }
  let s2 :=
    if won then
      let a :=
        { s1 with
          won := s1.won + 1
          totalScore := s1.totalScore + score
          bestScore := max s1.bestScore score }
      let b := bumpClueDist a cluesUsed
      let streak : Nat :=
        match stats.lastPlayedDate with
        | some d =>
          if d = yesterday then stats.currentStreak + 1
          else if d ≠ today then 1
          else stats.currentStreak
        | none => 1
      let c := { b with currentStreak := streak, maxStreak := max b.maxStreak streak }
      { c with categoryStats := updateCat c.categoryStats category score }
    else s1
  ({ s2 with lastPlayedDate := some today }, true)

/- ===================== concrete witness inputs ===================== -/

/-- The fallback daily puzzle from getDefaultPuzzles, used as a concrete
input by the witnesses. -/
def indiaPuzzle : Puzzle :=
  { id := "daily-001"
    category := "Countries"
    word := "INDIA"
    clues := ["This Asian nation has over 1 billion people",
      "The Taj Mahal is located here",
      "Its flag features a navy blue wheel with 24 spokes"]
    factoid := "India has 22 officially recognized languages." }

/-- A freshly initialized daily attempt at the witness puzzle. -/
def indiaStart : AttemptState :=
  createInitialState indiaPuzzle "2026-02-04" (some "2026-02-04")

/-- A persisted attempt state (one wrong guess already made) used by the
restore witness; its wrongPositionLetters field is the serialized list. -/
def savedExample : AttemptState :=
  { puzzleId := "daily-001"
    date := "2026-02-04"
    guesses := [['C', 'H', 'I', 'N', 'A']]
    cluesRevealed := 2
    correctPositions := [4]
    wrongPositionLetters := ['I', 'N']
    status := GStatus.inProgress
    score := 0 }

/-- Specification-side streak recomputation (refinement target for C8):
same day leaves the streak unchanged, exactly one calendar day later
increments it, any other prior date or no prior date resets it to 1. -/
def specStreak (last : Option String) (today yesterday : String) (cur : Nat) : Nat :=
  match last with
  | none => 1
  | some d => if d = today then cur else if d = yesterday then cur + 1 else 1

/- ===================== theorems: scoring and selector ===================== -/

/-- C2: for cluesUsed in {1,2,3} and totalGuesses >= 1, calculateScore
returns max(10, base - (totalGuesses - 1) * 5) with base 100/85/70; it is
non-increasing in totalGuesses for fixed cluesUsed, never below 10, and
calculateScore 1 1 = 100, calculateScore 2 4 = 70, calculateScore 3 10 = 25. -/
theorem calculateScore_spec :
    (∀ t : Int, 1 ≤ t →
      calculateScore 1 t = max 10 (100 - (t - 1) * 5) ∧
      calculateScore 2 t = max 10 (85 - (t - 1) * 5) ∧
      calculateScore 3 t = max 10 (70 - (t - 1) * 5)) ∧
    (∀ c : Nat, (c = 1 ∨ c = 2 ∨ c = 3) → ∀ t t' : Int, 1 ≤ t → t ≤ t' →
      calculateScore c t' ≤ calculateScore c t) ∧
    (∀ c : Nat, (c = 1 ∨ c = 2 ∨ c = 3) → ∀ t : Int, 10 ≤ calculateScore c t) ∧
    calculateScore 1 1 = 100 ∧ calculateScore 2 4 = 70 ∧ calculateScore 3 10 = 25 := by
  refine ⟨?_, ?_, ?_, by decide, by decide, by decide⟩
  · intro t ht
    refine ⟨?_, ?_, ?_⟩ <;>
      simp only [calculateScore, BASE_SCORE_ONE_CLUE, BASE_SCORE_TWO_CLUES,
        BASE_SCORE_THREE_CLUES, PENALTY_PER_WRONG_GUESS] <;> omega
  · rintro c (rfl | rfl | rfl) t t' ht htt <;>
      simp only [calculateScore, BASE_SCORE_ONE_CLUE, BASE_SCORE_TWO_CLUES,
        BASE_SCORE_THREE_CLUES, PENALTY_PER_WRONG_GUESS] <;> omega
  · rintro c (rfl | rfl | rfl) t <;>
      simp only [calculateScore, BASE_SCORE_ONE_CLUE, BASE_SCORE_TWO_CLUES,
        BASE_SCORE_THREE_CLUES, PENALTY_PER_WRONG_GUESS] <;> omega

/-- Witness for C2 at concrete inputs. -/
theorem calculateScore_spec_witness :
    (1 : Int) ≤ 3 ∧ calculateScore 1 3 = max 10 (100 - (3 - 1) * 5) := by
  exact ⟨by decide, (calculateScore_spec.1 3 (by decide)).1⟩

/-- C9: the daily puzzle index is deterministic (a pure function of the two
dates and the pool size), equals the number of whole calendar days elapsed
from the launch epoch to the given day taken modulo totalPuzzles, lies in
[0, totalPuzzles), and is 0 on the epoch date itself. -/
theorem getDailyPuzzleIndex_spec (epoch day : Int) (totalPuzzles : Nat)
    (hN : 0 < totalPuzzles) (hle : epoch ≤ day) :
    getDailyPuzzleIndex epoch day totalPuzzles =
      specWholeDaysElapsed epoch day % totalPuzzles ∧
    getDailyPuzzleIndex epoch day totalPuzzles < totalPuzzles ∧
    getDailyPuzzleIndex epoch epoch totalPuzzles = 0 := by
  have habs : (day - epoch).natAbs = (day - epoch).toNat := by omega
  refine ⟨?_, ?_, ?_⟩
  · simp [getDailyPuzzleIndex, daysBetween, specWholeDaysElapsed, habs]
  · exact Nat.mod_lt _ hN
  · simp [getDailyPuzzleIndex, daysBetween]

/-- Witness for C9 at concrete inputs (epoch = 2026-02-04 UTC in ms,
day = epoch + 10 days, pool of 7 puzzles: index = 10 % 7 = 3). -/
theorem getDailyPuzzleIndex_spec_witness :
    getDailyPuzzleIndex 1770163200000 (1770163200000 + 10 * 86400000) 7 =
      specWholeDaysElapsed 1770163200000 (1770163200000 + 10 * 86400000) % 7 ∧
    getDailyPuzzleIndex 1770163200000 (1770163200000 + 10 * 86400000) 7 < 7 ∧
    getDailyPuzzleIndex 1770163200000 1770163200000 7 = 0 :=
  getDailyPuzzleIndex_spec 1770163200000 (1770163200000 + 10 * 86400000) 7
    (by decide) (by omega)

/- ===================== lemmas: consume ===================== -/

/-- consume finds nothing exactly when no unconsumed occurrence is left. -/
theorem consume_eq_none (c : Char) :
    ∀ tc, consume c tc = none ↔ cntOptChar c tc = 0 := by
  intro tc
  induction tc with
  | nil => simp [consume, cntOptChar]
  | cons t ts ih =>
    by_cases h : t = some c
    · simp [consume, cntOptChar, h]
    · simp only [consume, cntOptChar, if_neg h]
      cases hc : consume c ts with
      | some ts' =>
        have := ih.not
        simp [hc] at this ⊢
        omega
      | none =>
        have := ih
        simp [hc] at this
        simp [this]

/-- A successful consume removes exactly one unconsumed occurrence of the
consumed letter. -/
theorem consume_some_self (c : Char) :
    ∀ tc tc', consume c tc = some tc' →
      cntOptChar c tc = cntOptChar c tc' + 1 := by
  intro tc
  induction tc with
  | nil => intro tc' h; simp [consume] at h
  | cons t ts ih =>
    intro tc' h
    by_cases ht : t = some c
    · simp only [consume, if_pos ht, Option.some.injEq] at h
      subst h
      simp [cntOptChar, ht]
      omega
    · simp only [consume, if_neg ht] at h
      cases hc : consume c ts with
      | some ts' =>
        rw [hc] at h
        simp only [Option.some.injEq] at h
        subst h
        simp [cntOptChar, ht, ih ts' hc]
      | none => rw [hc] at h; cases h

/-- A successful consume of a different letter leaves the occurrence count
of c unchanged. -/
theorem consume_some_other (c d : Char) (hdc : d ≠ c) :
    ∀ tc tc', consume d tc = some tc' →
      cntOptChar c tc' = cntOptChar c tc := by
  intro tc
  induction tc with
  | nil => intro tc' h; simp [consume] at h
  | cons t ts ih =>
    intro tc' h
    by_cases ht : t = some d
    · simp only [consume, if_pos ht, Option.some.injEq] at h
      subst h
      have : t ≠ some c := by
        rw [ht]; intro hx
        exact hdc (Option.some.inj hx)
      simp [cntOptChar, this]
    · simp only [consume, if_neg ht] at h
      cases hc : consume d ts with
      | some ts' =>
        rw [hc] at h
        simp only [Option.some.injEq] at h
        subst h
        simp [cntOptChar, ih ts' hc]
      | none => rw [hc] at h; cases h

/- ===================== lemmas: pass 2 counting ===================== -/

/-- Pass 2 produces marked-cell non-'wrong' entries for c unchanged, plus
one 'wrongPosition' entry for each unmarked c cell as long as an unconsumed
c remains in the target copy: the non-'wrong' total for c is the marked
total plus min(unmarked c cells, unconsumed c letters). -/
theorem pass2_cntNonWrong (c : Char) :
    ∀ (gs : List Char) (rs : List (Option LEntry)) (tc : List (Option Char)) (i : Nat),
      cntNonWrong c (pass2 i gs rs tc) =
        markedNonWrong c gs rs + min (unmarkedCnt c gs rs) (cntOptChar c tc) := by
  intro gs
  induction gs with
  | nil => intro rs tc i; simp [pass2, cntNonWrong, markedNonWrong, unmarkedCnt]
  | cons g gs ih =>
    intro rs tc i
    have step : ∀ (rs' : List (Option LEntry)),
        cntNonWrong c (pass2 i (g :: gs) (none :: rs') tc) =
          markedNonWrong c (g :: gs) (none :: rs') +
            min (unmarkedCnt c (g :: gs) (none :: rs')) (cntOptChar c tc) := by
      intro rs'
      cases hc : consume g tc with
      | some tc' =>
        have hcnt := consume_some_self g tc tc' hc
        by_cases hg : g = c
        · subst hg
          simp [pass2, hc, cntNonWrong, markedNonWrong, unmarkedCnt, ih] <;> omega
        · have hother := consume_some_other c g hg tc tc' hc
          simp [pass2, hc, hg, cntNonWrong, markedNonWrong, unmarkedCnt, ih] <;> omega
      | none =>
        have hzero : cntOptChar g tc = 0 := (consume_eq_none g tc).1 hc
        by_cases hg : g = c
        · subst hg
          simp [pass2, hc, cntNonWrong, markedNonWrong, unmarkedCnt, ih] <;> omega
        · simp [pass2, hc, hg, cntNonWrong, markedNonWrong, unmarkedCnt, ih] <;> omega
    rcases rs with _ | ⟨r, rs⟩
    · have h := step []
      simpa [markedNonWrong, unmarkedCnt, pass2] using h
    · rcases r with _ | e
      · exact step rs
      · simp [pass2, cntNonWrong, markedNonWrong, unmarkedCnt, ih] <;> omega

/-- Pass 2 counterpart for 'wrong' entries: the marked 'wrong' total plus
one 'wrong' entry for each unmarked c cell beyond the unconsumed c supply. -/
theorem pass2_cntWrong (c : Char) :
    ∀ (gs : List Char) (rs : List (Option LEntry)) (tc : List (Option Char)) (i : Nat),
      cntWrong c (pass2 i gs rs tc) =
        markedWrong c gs rs +
          (unmarkedCnt c gs rs - min (unmarkedCnt c gs rs) (cntOptChar c tc)) := by
  intro gs
  induction gs with
  | nil => intro rs tc i; simp [pass2, cntWrong, markedWrong, unmarkedCnt]
  | cons g gs ih =>
    intro rs tc i
    have step : ∀ (rs' : List (Option LEntry)),
        cntWrong c (pass2 i (g :: gs) (none :: rs') tc) =
          markedWrong c (g :: gs) (none :: rs') +
            (unmarkedCnt c (g :: gs) (none :: rs') -
              min (unmarkedCnt c (g :: gs) (none :: rs')) (cntOptChar c tc)) := by
      intro rs'
      cases hc : consume g tc with
      | some tc' =>
        have hcnt := consume_some_self g tc tc' hc
        by_cases hg : g = c
        · subst hg
          simp [pass2, hc, cntWrong, markedWrong, unmarkedCnt, ih] <;> omega
        · have hother := consume_some_other c g hg tc tc' hc
          simp [pass2, hc, hg, cntWrong, markedWrong, unmarkedCnt, ih] <;> omega
      | none =>
        have hzero : cntOptChar g tc = 0 := (consume_eq_none g tc).1 hc
        by_cases hg : g = c
        · subst hg
          simp [pass2, hc, cntWrong, markedWrong, unmarkedCnt, ih] <;> omega
        · simp [pass2, hc, hg, cntWrong, markedWrong, unmarkedCnt, ih] <;> omega
    rcases rs with _ | ⟨r, rs⟩
    · have h := step []
      simpa [markedWrong, unmarkedCnt, pass2] using h
    · rcases r with _ | e
      · exact step rs
      · simp [pass2, cntWrong, markedWrong, unmarkedCnt, ih] <;> omega

/- ===================== lemmas: pass 1 accounting ===================== -/

/-- Every marked cell produced by pass 1 is a 'correct' entry, so the
marked non-'wrong' entries for c are exactly the positional matches on c. -/
theorem pass1_markedNonWrong (c : Char) :
    ∀ (gs ts : List Char) (i : Nat),
      markedNonWrong c gs (pass1 i gs ts).1 = matchCnt c gs ts := by
  intro gs
  induction gs with
  | nil => intro ts i; simp [pass1, markedNonWrong, matchCnt]
  | cons g gs ih =>
    intro ts i
    cases ts with
    | nil => simp [pass1, markedNonWrong, matchCnt, ih]
    | cons t ts =>
      by_cases h : g = t
      · subst h
        simp [pass1, markedNonWrong, matchCnt, ih]
      · simp [pass1, h, markedNonWrong, matchCnt, ih]

/-- Pass 1 produces no 'wrong' entries at all. -/
theorem pass1_markedWrong (c : Char) :
    ∀ (gs ts : List Char) (i : Nat),
      markedWrong c gs (pass1 i gs ts).1 = 0 := by
  intro gs
  induction gs with
  | nil => intro ts i; simp [pass1, markedWrong]
  | cons g gs ih =>
    intro ts i
    cases ts with
    | nil => simp [pass1, markedWrong, ih]
    | cons t ts =>
      by_cases h : g = t
      · subst h
        simp [pass1, markedWrong, ih]
      · simp [pass1, h, markedWrong, ih]

/-- After pass 1 the unmarked guess cells carrying c, together with the
positional matches on c, account for every occurrence of c in the guess. -/
theorem pass1_unmarkedCnt (c : Char) :
    ∀ (gs ts : List Char) (i : Nat),
      unmarkedCnt c gs (pass1 i gs ts).1 + matchCnt c gs ts = cntChar c gs := by
  intro gs
  induction gs with
  | nil => intro ts i; simp [pass1, unmarkedCnt, matchCnt, cntChar]
  | cons g gs ih =>
    intro ts i
    cases ts with
    | nil =>
      by_cases hg : g = c
      · simp [pass1, unmarkedCnt, matchCnt, cntChar, hg]
        have := ih [] (i + 1)
        simp [matchCnt] at this
        omega
      · simp [pass1, unmarkedCnt, matchCnt, cntChar, hg]
        have := ih [] (i + 1)
        simp [matchCnt] at this
        omega
    | cons t ts =>
      have := ih ts (i + 1)
      by_cases h : g = t
      · simp [pass1, h, unmarkedCnt, matchCnt, cntChar] <;> omega
      · simp [pass1, h, unmarkedCnt, matchCnt, cntChar] <;> omega

/-- The occurrences of c in a fully unconsumed target copy. -/
theorem cntOptChar_map_some (c : Char) :
    ∀ ts : List Char, cntOptChar c (ts.map some) = cntChar c ts := by
  intro ts
  induction ts with
  | nil => simp [cntOptChar, cntChar]
  | cons t ts ih =>
    by_cases h : t = c <;> simp [cntOptChar, cntChar, h, ih]

/-- After pass 1 the unconsumed occurrences of c in the target copy,
together with the positional matches on c, account for every occurrence of
c in the target. -/
theorem pass1_cntOptChar (c : Char) :
    ∀ (gs ts : List Char) (i : Nat),
      cntOptChar c (pass1 i gs ts).2 + matchCnt c gs ts = cntChar c ts := by
  intro gs
  induction gs with
  | nil => intro ts i; simp [pass1, matchCnt, cntOptChar_map_some]
  | cons g gs ih =>
    intro ts i
    cases ts with
    | nil =>
      have := ih [] (i + 1)
      simp [matchCnt, cntChar] at this ⊢
      simp [pass1]
      omega
    | cons t ts =>
      have := ih ts (i + 1)
      by_cases h : g = t
      · simp [pass1, h, matchCnt, cntChar, cntOptChar] <;> omega
      · simp [pass1, h, matchCnt, cntChar, cntOptChar] <;> omega

/- ===================== lemmas: entry order ===================== -/

/-- The pass-2 output lists one entry per guess cell whose letter is that
cell's guess letter, provided the marked entries agree with the guess
(which pass 1 guarantees). -/
theorem pass2_map_letter :
    ∀ (gs : List Char) (rs : List (Option LEntry)) (tc : List (Option Char)) (i : Nat),
      AlignedLetters gs rs →
      (pass2 i gs rs tc).map (fun e => e.letter) = gs := by
  intro gs
  induction gs with
  | nil => intro rs tc i _; simp [pass2]
  | cons g gs ih =>
    intro rs tc i hA
    rcases rs with _ | ⟨r, rs⟩
    · cases hc : consume g tc with
      | some tc' => simp [pass2, hc]; exact ih [] tc' (i + 1) hA.2
      | none => simp [pass2, hc]; exact ih [] tc (i + 1) hA.2
    · rcases r with _ | e
      · cases hc : consume g tc with
        | some tc' => simp [pass2, hc]; exact ih rs tc' (i + 1) hA.2
        | none => simp [pass2, hc]; exact ih rs tc (i + 1) hA.2
      · have hletter : e.letter = g := hA.1 e (by simp)
        simp [pass2, hletter]
        exact ih rs tc (i + 1) hA.2

/-- The pass-2 output lists positions i, i+1, ... in order, provided the
marked entries carry their own index (which pass 1 guarantees). -/
theorem pass2_map_position :
    ∀ (gs : List Char) (rs : List (Option LEntry)) (tc : List (Option Char)) (i : Nat),
      AlignedPos i gs rs →
      (pass2 i gs rs tc).map (fun e => e.position) = posRange i gs.length := by
  intro gs
  induction gs with
  | nil => intro rs tc i _; simp [pass2, posRange]
  | cons g gs ih =>
    intro rs tc i hA
    rcases rs with _ | ⟨r, rs⟩
    · cases hc : consume g tc with
      | some tc' => simp [pass2, hc, posRange]; exact ih [] tc' (i + 1) hA.2
      | none => simp [pass2, hc, posRange]; exact ih [] tc (i + 1) hA.2
    · rcases r with _ | e
      · cases hc : consume g tc with
        | some tc' => simp [pass2, hc, posRange]; exact ih rs tc' (i + 1) hA.2
        | none => simp [pass2, hc, posRange]; exact ih rs tc (i + 1) hA.2
      · have hpos : e.position = i := hA.1 e (by simp)
        simp [pass2, hpos, posRange]
        exact ih rs tc (i + 1) hA.2

/-- Pass 1 marks a cell only with an entry carrying that cell's guess
letter. -/
theorem pass1_alignedLetters :
    ∀ (gs ts : List Char) (i : Nat), AlignedLetters gs (pass1 i gs ts).1 := by
  intro gs
  induction gs with
  | nil => intro ts i; trivial
  | cons g gs ih =>
    intro ts i
    cases ts with
    | nil =>
      refine ⟨?_, ?_⟩
      · intro e he; simp [pass1] at he
      · simpa [pass1] using ih [] (i + 1)
    | cons t ts =>
      by_cases h : g = t
      · refine ⟨?_, ?_⟩
        · intro e he
          simp [pass1, h] at he
          subst he
          exact h.symm
        · simpa [pass1, h] using ih ts (i + 1)
      · refine ⟨?_, ?_⟩
        · intro e he; simp [pass1, h] at he
        · simpa [pass1, h] using ih ts (i + 1)

/-- Pass 1 marks a cell only with an entry carrying that cell's index. -/
theorem pass1_alignedPos :
    ∀ (gs ts : List Char) (i : Nat), AlignedPos i gs (pass1 i gs ts).1 := by
  intro gs
  induction gs with
  | nil => intro ts i; trivial
  | cons g gs ih =>
    intro ts i
    cases ts with
    | nil =>
      refine ⟨?_, ?_⟩
      · intro e he; simp [pass1] at he
      · simpa [pass1] using ih [] (i + 1)
    | cons t ts =>
      by_cases h : g = t
      · refine ⟨?_, ?_⟩
        · intro e he
          simp [pass1, h] at he
          subst he
          rfl
        · simpa [pass1, h] using ih ts (i + 1)
      · refine ⟨?_, ?_⟩
        · intro e he; simp [pass1, h] at he
        · simpa [pass1, h] using ih ts (i + 1)

/-- posRange from 0 coincides with List.range. -/
theorem posRange_eq_range : ∀ (n i : Nat), posRange i n = List.range' i n := by
  intro n
  induction n with
  | zero => intro i; simp [posRange]
  | succ n ih => intro i; simp [posRange, List.range'_succ, ih]

/- ===================== theorem: C1 ===================== -/

/-- C1: for equal-length letters-only guess and target, evaluateGuess is
exactly the two-pass algorithm (definitional conjunct), returns one entry
per guess character in guess order (letters and positions conjuncts), and,
as a consequence of the consumption rule, a letter occurring once in the
target and twice in the guess yields exactly one non-'wrong' entry and one
'wrong' entry for that letter. -/
theorem evaluateGuess_two_pass (guess target : List Char)
    (hlen : guess.length = target.length) :
    evaluateGuessCore guess target =
      pass2 0 guess (pass1 0 guess target).1 (pass1 0 guess target).2 ∧
    (evaluateGuessCore guess target).length = guess.length ∧
    (evaluateGuessCore guess target).map (fun e => e.letter) = guess ∧
    (evaluateGuessCore guess target).map (fun e => e.position) =
      List.range guess.length ∧
    (∀ g t : String, evaluateGuess g t =
      evaluateGuessCore (g.toList.map Char.toUpper) (lettersOnly t)) ∧
    ∀ c : Char, cntChar c target = 1 → cntChar c guess = 2 →
      cntNonWrong c (evaluateGuessCore guess target) = 1 ∧
      cntWrong c (evaluateGuessCore guess target) = 1 := by
  have hletters := pass2_map_letter guess (pass1 0 guess target).1
    (pass1 0 guess target).2 0 (pass1_alignedLetters guess target 0)
  have hpos := pass2_map_position guess (pass1 0 guess target).1
    (pass1 0 guess target).2 0 (pass1_alignedPos guess target 0)
  refine ⟨rfl, ?_, ?_, ?_, fun g t => rfl, ?_⟩
  · have := congrArg List.length hletters
    simpa [evaluateGuessCore] using this
  · simpa [evaluateGuessCore] using hletters
  · rw [List.range_eq_range', ← posRange_eq_range]
    simpa [evaluateGuessCore] using hpos
  · intro c htarget hguess
    have h1 := pass2_cntNonWrong c guess (pass1 0 guess target).1
      (pass1 0 guess target).2 0
    have h2 := pass2_cntWrong c guess (pass1 0 guess target).1
      (pass1 0 guess target).2 0
    have hm := pass1_markedNonWrong c guess target 0
    have hw := pass1_markedWrong c guess target 0
    have hu := pass1_unmarkedCnt c guess target 0
    have ht := pass1_cntOptChar c guess target 0
    constructor
    · show cntNonWrong c
        (pass2 0 guess (pass1 0 guess target).1 (pass1 0 guess target).2) = 1
      omega
    · show cntWrong c
        (pass2 0 guess (pass1 0 guess target).1 (pass1 0 guess target).2) = 1
      omega

/-- Witness for C1: guess ABA against target ACD; the letter A occurs once
in the target and twice in the guess, and the evaluation yields exactly one
non-'wrong' and one 'wrong' entry for A. -/
theorem evaluateGuess_two_pass_witness :
    (['A', 'B', 'A'] : List Char).length = (['A', 'C', 'D'] : List Char).length ∧
    cntChar 'A' ['A', 'C', 'D'] = 1 ∧ cntChar 'A' ['A', 'B', 'A'] = 2 ∧
    cntNonWrong 'A' (evaluateGuessCore ['A', 'B', 'A'] ['A', 'C', 'D']) = 1 ∧
    cntWrong 'A' (evaluateGuessCore ['A', 'B', 'A'] ['A', 'C', 'D']) = 1 := by
  have h := evaluateGuess_two_pass ['A', 'B', 'A'] ['A', 'C', 'D'] (by decide)
  have h2 := h.2.2.2.2.2 'A' (by decide) (by decide)
  exact ⟨by decide, by decide, by decide, h2.1, h2.2⟩

/- ===================== theorems: submitGuess failure paths (C3) ===================== -/

/-- C3: on an initialized in-progress attempt, a length-mismatched guess
fails with the message carrying the required length and a duplicate guess
(same length, already in guesses, checked before any evaluation) fails with
'Already guessed'; both failures return success = false plus a message,
leave the state record (guesses, cluesRevealed, correctPositions,
wrongPositionLetters, status, score) untouched, and perform no persistence
write. -/
theorem submitGuess_failure_no_mutation (p : Puzzle) (s : AttemptState) (g : String)
    (hs : s.status = GStatus.inProgress) :
    ((normalizeGuess g).length ≠ (lettersOnly p.word).length →
      submitGuess p s g = failOutcome s
        ("Guess must be " ++ toString (lettersOnly p.word).length ++ " letters")) ∧
    ((normalizeGuess g).length = (lettersOnly p.word).length →
      normalizeGuess g ∈ s.guesses →
      submitGuess p s g = failOutcome s "Already guessed") ∧
    ∀ msg : String,
      (failOutcome s msg).success = false ∧
      (failOutcome s msg).error = some msg ∧
      (failOutcome s msg).state = s ∧
      (failOutcome s msg).evaluation = [] ∧
      (failOutcome s msg).saved = false ∧
      (failOutcome s msg).statsUpdated = false ∧
      (failOutcome s msg).trackedPuzzle = false := by
  have hw : ¬s.status = GStatus.won := by simp [hs]
  refine ⟨?_, ?_, ?_⟩
  · intro hlen
    simp [submitGuess, hw, hlen]
  · intro hlen hdup
    simp [submitGuess, hw, hlen, hdup]
  · intro msg
    exact ⟨rfl, rfl, rfl, rfl, rfl, rfl, rfl⟩

/-- Witness for C3: a two-letter guess against the five-letter witness
puzzle fails with the length message and an untouched state. -/
theorem submitGuess_failure_no_mutation_witness :
    submitGuess indiaPuzzle indiaStart "AB" =
      failOutcome indiaStart
        ("Guess must be " ++ toString (lettersOnly indiaPuzzle.word).length ++ " letters") ∧
    (failOutcome indiaStart "x").state = indiaStart := by
  have h := submitGuess_failure_no_mutation indiaPuzzle indiaStart "AB" (by decide)
  exact ⟨h.1 (by decide), (h.2.2 "x").2.2.1⟩

/- ===================== theorems: terminal won state (C5) ===================== -/

/-- Once won, a submitGuess call fails with the AlreadyWon message and
returns the state unmodified with no persistence write; consequently any
sequence of further calls leaves the state identical. -/
theorem submitGuess_alreadyWon (p : Puzzle) (s : AttemptState) (g : String)
    (gs : List String) (hs : s.status = GStatus.won) :
    (submitGuess p s g).success = false ∧
    (submitGuess p s g).error = some "Game already completed" ∧
    (submitGuess p s g).state = s ∧
    (submitGuess p s g).saved = false ∧
    (submitGuess p s g).statsUpdated = false ∧
    (submitGuess p s g).trackedPuzzle = false ∧
    playGuesses p s gs = s := by
  have h1 : submitGuess p s g = failOutcome s "Game already completed" := by
    simp [submitGuess, hs]
  have hplay : ∀ (gs' : List String) (s' : AttemptState), s'.status = GStatus.won →
      playGuesses p s' gs' = s' := by
    intro gs'
    induction gs' with
    | nil => intro s' _; rfl
    | cons g' rest ih =>
      intro s' hs'
      have hstep : submitGuess p s' g' = failOutcome s' "Game already completed" := by
        simp [submitGuess, hs']
      have : playGuesses p s' (g' :: rest) = playGuesses p s' rest := by
        simp [playGuesses, hstep, failOutcome]
      rw [this]
      exact ih s' hs'
  exact ⟨by simp [h1, failOutcome], by simp [h1, failOutcome], by simp [h1, failOutcome],
    by simp [h1, failOutcome], by simp [h1, failOutcome], by simp [h1, failOutcome],
    hplay gs s hs⟩

/-- Witness for C5: a solved attempt rejects a further guess and stays
untouched across two more calls. -/
theorem submitGuess_alreadyWon_witness :
    (submitGuess indiaPuzzle (submitGuess indiaPuzzle indiaStart "INDIA").state
        "CHINA").state = (submitGuess indiaPuzzle indiaStart "INDIA").state ∧
    playGuesses indiaPuzzle (submitGuess indiaPuzzle indiaStart "INDIA").state
        ["CHINA", "JAPAN"] = (submitGuess indiaPuzzle indiaStart "INDIA").state := by
  have h := submitGuess_alreadyWon indiaPuzzle
    (submitGuess indiaPuzzle indiaStart "INDIA").state "CHINA" ["CHINA", "JAPAN"]
    (by decide)
  exact ⟨h.2.2.1, h.2.2.2.2.2.2⟩

/- ===================== theorems: clue revelation (C4) ===================== -/

/-- One submitGuess call either keeps cluesRevealed or, when it was below
the cap, increments it by exactly one. -/
theorem submitGuess_clues_cases (p : Puzzle) (s : AttemptState) (g : String) :
    (submitGuess p s g).state.cluesRevealed = s.cluesRevealed ∨
    ((submitGuess p s g).state.cluesRevealed = s.cluesRevealed + 1 ∧
      s.cluesRevealed < 3) := by
  unfold submitGuess
  split_ifs with h1 h2 h3 h4
  · left; rfl
  · left; rfl
  · left; rfl
  · left; rfl
  · by_cases hc : s.cluesRevealed < MAX_CLUES
    · right
      refine ⟨?_, hc⟩
      simp [wrongOutcome, hc]
    · left
      simp [wrongOutcome, hc]

/-- Any sequence of calls keeps cluesRevealed within [lo, 3] when it starts
there. -/
theorem playGuesses_clues_bounds (p : Puzzle) :
    ∀ (gs : List String) (s : AttemptState),
      1 ≤ s.cluesRevealed → s.cluesRevealed ≤ 3 →
      1 ≤ (playGuesses p s gs).cluesRevealed ∧
        (playGuesses p s gs).cluesRevealed ≤ 3 := by
  intro gs
  induction gs with
  | nil => intro s h1 h3; exact ⟨h1, h3⟩
  | cons g rest ih =>
    intro s h1 h3
    have hcase := submitGuess_clues_cases p s g
    have hb : 1 ≤ (submitGuess p s g).state.cluesRevealed ∧
        (submitGuess p s g).state.cluesRevealed ≤ 3 := by omega
    have : playGuesses p s (g :: rest) =
        playGuesses p (submitGuess p s g).state rest := rfl
    rw [this]
    exact ih _ hb.1 hb.2

/-- Once the clue count reaches the cap it never moves again. -/
theorem playGuesses_clues_capped (p : Puzzle) :
    ∀ (gs : List String) (s : AttemptState), s.cluesRevealed = 3 →
      (playGuesses p s gs).cluesRevealed = 3 := by
  intro gs
  induction gs with
  | nil => intro s h; exact h
  | cons g rest ih =>
    intro s h
    have hcase := submitGuess_clues_cases p s g
    have hstep : (submitGuess p s g).state.cluesRevealed = 3 := by omega
    have : playGuesses p s (g :: rest) =
        playGuesses p (submitGuess p s g).state rest := rfl
    rw [this]
    exact ih _ hstep

/-- C4: from a fresh initialization, cluesRevealed starts at 1, stays an
integer in [1,3] under any sequence of submitGuess calls, never decreases
in a single call, increments by exactly 1 on a successful non-winning guess
while below 3, and once at 3 remains 3 for any further guesses. -/
theorem cluesRevealed_invariant :
    (∀ (p : Puzzle) (today : String) (d : Option String),
      (createInitialState p today d).cluesRevealed = 1) ∧
    (∀ (p : Puzzle) (today : String) (d : Option String) (gs : List String),
      1 ≤ (playGuesses p (createInitialState p today d) gs).cluesRevealed ∧
      (playGuesses p (createInitialState p today d) gs).cluesRevealed ≤ 3) ∧
    (∀ (p : Puzzle) (s : AttemptState) (g : String),
      s.cluesRevealed ≤ (submitGuess p s g).state.cluesRevealed) ∧
    (∀ (p : Puzzle) (s : AttemptState) (g : String),
      (submitGuess p s g).success = true →
      (submitGuess p s g).isCorrect = false →
      s.cluesRevealed < 3 →
      (submitGuess p s g).state.cluesRevealed = s.cluesRevealed + 1) ∧
    (∀ (p : Puzzle) (s : AttemptState) (gs : List String),
      s.cluesRevealed = 3 → (playGuesses p s gs).cluesRevealed = 3) := by
  refine ⟨fun p today d => rfl, ?_, ?_, ?_, ?_⟩
  · intro p today d gs
    exact playGuesses_clues_bounds p gs _ (by simp [createInitialState])
      (by simp [createInitialState])
  · intro p s g
    have := submitGuess_clues_cases p s g
    omega
  · intro p s g hsucc hcorr hlt
    by_cases h1 : s.status = GStatus.won
    · simp [submitGuess, h1, failOutcome] at hsucc
    by_cases h2 : (normalizeGuess g).length ≠ (lettersOnly p.word).length
    · simp [submitGuess, h1, h2, failOutcome] at hsucc
    by_cases h3 : normalizeGuess g ∈ s.guesses
    · simp [submitGuess, h1, h2, h3, failOutcome] at hsucc
    by_cases h4 : normalizeGuess g = lettersOnly p.word
    · rw [h4] at h3
      simp [submitGuess, h1, h2, h3, h4, winOutcome] at hcorr
    · have hmax : s.cluesRevealed < MAX_CLUES := hlt
      simp [submitGuess, h1, h2, h3, h4, wrongOutcome, hmax]
  · intro p s gs h
    exact playGuesses_clues_capped p gs s h

/-- Witness for C4: the first wrong guess on a fresh attempt raises
cluesRevealed from 1 to 2, and a capped attempt stays at 3. -/
theorem cluesRevealed_invariant_witness :
    (submitGuess indiaPuzzle indiaStart "CHINA").state.cluesRevealed =
      indiaStart.cluesRevealed + 1 ∧
    1 ≤ (playGuesses indiaPuzzle indiaStart ["CHINA", "JAPAN"]).cluesRevealed ∧
    (playGuesses indiaPuzzle indiaStart ["CHINA", "JAPAN"]).cluesRevealed ≤ 3 := by
  have h4 := cluesRevealed_invariant.2.2.2.1 indiaPuzzle indiaStart "CHINA"
    (by decide) (by decide) (by decide)
  have hb := cluesRevealed_invariant.2.1 indiaPuzzle "2026-02-04"
    (some "2026-02-04") ["CHINA", "JAPAN"]
  exact ⟨h4, hb.1, hb.2⟩

/- ===================== theorems: winning transition (C6) ===================== -/

/-- C6: a winning guess (normalized guess equal to the letters-only
uppercased target) on an in-progress attempt sets status 'won',
correctPositions to the full index range, leaves cluesRevealed as is and
computes the score from the final cluesRevealed and the new guess count;
in the INDIA scenario (guesses CHINA, JAPAN, INDIA) position 4 is revealed
after the first guess and the third guess wins with cluesRevealed 3 and
score 60. -/
theorem submitGuess_win_spec :
    (∀ (p : Puzzle) (s : AttemptState) (g : String),
      s.status = GStatus.inProgress →
      normalizeGuess g = lettersOnly p.word →
      normalizeGuess g ∉ s.guesses →
      (submitGuess p s g).success = true ∧
      (submitGuess p s g).isCorrect = true ∧
      (submitGuess p s g).state.status = GStatus.won ∧
      (submitGuess p s g).state.correctPositions =
        List.range (lettersOnly p.word).length ∧
      (submitGuess p s g).state.cluesRevealed = s.cluesRevealed ∧
      (submitGuess p s g).state.guesses = s.guesses ++ [normalizeGuess g] ∧
      (submitGuess p s g).state.score =
        calculateScore s.cluesRevealed ((s.guesses.length + 1 : Nat) : Int) ∧
      (submitGuess p s g).statsUpdated = true ∧
      (submitGuess p s g).saved = true) ∧
    4 ∈ (submitGuess indiaPuzzle indiaStart "CHINA").state.correctPositions ∧
    (submitGuess indiaPuzzle
      (submitGuess indiaPuzzle
        (submitGuess indiaPuzzle indiaStart "CHINA").state "JAPAN").state
      "INDIA").state.status = GStatus.won ∧
    (submitGuess indiaPuzzle
      (submitGuess indiaPuzzle
        (submitGuess indiaPuzzle indiaStart "CHINA").state "JAPAN").state
      "INDIA").state.cluesRevealed = 3 ∧
    (submitGuess indiaPuzzle
      (submitGuess indiaPuzzle
        (submitGuess indiaPuzzle indiaStart "CHINA").state "JAPAN").state
      "INDIA").state.score = 60 := by
  refine ⟨?_, by decide, by decide, by decide, by decide⟩
  intro p s g hs heq hdup
  have h1 : ¬s.status = GStatus.won := by simp [hs]
  rw [heq] at hdup
  simp [submitGuess, h1, heq, hdup, winOutcome]

/-- Witness for C6: the fresh witness attempt solved in one guess. -/
theorem submitGuess_win_spec_witness :
    (submitGuess indiaPuzzle indiaStart "INDIA").state.status = GStatus.won ∧
    (submitGuess indiaPuzzle indiaStart "INDIA").state.score =
      calculateScore indiaStart.cluesRevealed
        ((indiaStart.guesses.length + 1 : Nat) : Int) := by
  have h := submitGuess_win_spec.1 indiaPuzzle indiaStart "INDIA"
    (by decide) (by decide) (by decide)
  exact ⟨h.2.2.1, h.2.2.2.2.2.2.1⟩

/- ===================== theorems: initialization (C7) ===================== -/

/-- C7: initGame restores the prior state verbatim (rebuilding the
wrong-position-letters set from the stored list) exactly when a prior state
exists and its puzzleId matches the puzzle; a null or mismatched prior
state yields the fresh state (cluesRevealed 1, empty guesses, positions and
letters, status in-progress, score 0), persisted immediately. -/
theorem initGame_spec :
    (∀ (p : Puzzle) (st : AttemptState) (daily : Bool) (today : String),
      st.puzzleId = p.id →
      initGame p (some st) daily today =
        ({ st with wrongPositionLetters := jsSetOfList st.wrongPositionLetters },
          false)) ∧
    (∀ (p : Puzzle) (st : AttemptState) (daily : Bool) (today : String),
      st.puzzleId ≠ p.id →
      initGame p (some st) daily today =
        (createInitialState p today (if daily then some today else none), true)) ∧
    (∀ (p : Puzzle) (daily : Bool) (today : String),
      initGame p none daily today =
        (createInitialState p today (if daily then some today else none), true)) ∧
    (∀ (p : Puzzle) (today : String) (d : Option String),
      (createInitialState p today d).cluesRevealed = 1 ∧
      (createInitialState p today d).guesses = [] ∧
      (createInitialState p today d).correctPositions = [] ∧
      (createInitialState p today d).wrongPositionLetters = [] ∧
      (createInitialState p today d).status = GStatus.inProgress ∧
      (createInitialState p today d).score = 0) := by
  refine ⟨?_, ?_, ?_, ?_⟩
  · intro p st daily today h
    simp [initGame, h]
  · intro p st daily today h
    simp [initGame, h]
  · intro p daily today
    rfl
  · intro p today d
    exact ⟨rfl, rfl, rfl, rfl, rfl, rfl⟩

/-- Witness for C7: a matching saved state is restored with its letter set
rebuilt, and a mismatched one is discarded for a fresh persisted state. -/
theorem initGame_spec_witness :
    initGame indiaPuzzle (some savedExample) true "2026-02-04" =
      ({ savedExample with
          wrongPositionLetters := jsSetOfList savedExample.wrongPositionLetters },
        false) ∧
    initGame indiaPuzzle (some { savedExample with puzzleId := "daily-099" })
        true "2026-02-04" =
      (createInitialState indiaPuzzle "2026-02-04"
        (if true then some "2026-02-04" else none), true) := by
  exact ⟨initGame_spec.1 indiaPuzzle savedExample true "2026-02-04" (by decide),
    initGame_spec.2.1 indiaPuzzle { savedExample with puzzleId := "daily-099" }
      true "2026-02-04" (by decide)⟩

/- ===================== theorems: no letters-only validation (C10) ===================== -/

/-- C10: submitGuess validates only length and duplication, never letter
content: any guess whose normalized form has the target's letters-only
length and is not already present is accepted, appended to guesses,
evaluated by the evaluator, and the state is persisted. -/
theorem submitGuess_no_letter_validation (p : Puzzle) (s : AttemptState) (g : String)
    (hs : s.status = GStatus.inProgress)
    (hlen : (normalizeGuess g).length = (lettersOnly p.word).length)
    (hdup : normalizeGuess g ∉ s.guesses) :
    (submitGuess p s g).success = true ∧
    (submitGuess p s g).state.guesses = s.guesses ++ [normalizeGuess g] ∧
    (submitGuess p s g).evaluation =
      evalOnLists (normalizeGuess g) (lettersOnly p.word) ∧
    (submitGuess p s g).saved = true := by
  have h1 : ¬s.status = GStatus.won := by simp [hs]
  by_cases hwin : normalizeGuess g = lettersOnly p.word
  · rw [hwin] at hdup
    simp [submitGuess, h1, hlen, hdup, hwin, winOutcome]
  · simp [submitGuess, h1, hlen, hdup, hwin, wrongOutcome]

/-- Witness for C10: the digit-containing guess IND1A (same length as
INDIA, no letters-only filtering) is accepted and its digit cell is marked
'wrong' by the evaluator. -/
theorem submitGuess_no_letter_validation_witness :
    (submitGuess indiaPuzzle indiaStart "IND1A").success = true ∧
    (submitGuess indiaPuzzle indiaStart "IND1A").state.guesses =
      indiaStart.guesses ++ [normalizeGuess "IND1A"] ∧
    (submitGuess indiaPuzzle indiaStart "IND1A").evaluation.get? 3 =
      some ⟨'1', LStatus.wrong, 3⟩ := by
  have h := submitGuess_no_letter_validation indiaPuzzle indiaStart "IND1A"
    (by decide) (by decide) (by decide)
  exact ⟨h.1, h.2.1, by decide⟩

/- ===================== theorems: statistics update (C8) ===================== -/

/-- The clue-distribution bump touches no other stats field. -/
theorem bumpClueDist_preserves (s : Stats) (k : Nat) :
    (bumpClueDist s k).currentStreak = s.currentStreak ∧
    (bumpClueDist s k).maxStreak = s.maxStreak ∧
    (bumpClueDist s k).bestScore = s.bestScore ∧
    (bumpClueDist s k).totalScore = s.totalScore ∧
    (bumpClueDist s k).categoryStats = s.categoryStats := by
  unfold bumpClueDist
  split <;> simp

/-- The per-category update increments played and adds the score for the
given category, creating the zero entry when absent. -/
theorem lookupCat_updateCat (cat : String) (score : Int) :
    ∀ cs : List (String × CatStat),
      lookupCat (updateCat cs cat score) cat =
        some ⟨((lookupCat cs cat).getD ⟨0, 0⟩).played + 1,
          ((lookupCat cs cat).getD ⟨0, 0⟩).totalScore + score⟩ := by
  intro cs
  induction cs with
  | nil => simp [updateCat, lookupCat]
  | cons hd rest ih =>
    obtain ⟨c, st⟩ := hd
    by_cases h : c = cat
    · simp [updateCat, lookupCat, h]
    · simp [updateCat, lookupCat, h, ih]
/-- C8: on a winning call, the synchronous store's updateStats recomputes
the streak from the stored lastPlayedDate (same day unchanged, exactly one
calendar day later incremented, otherwise or with no prior date reset to
1), raises maxStreak to max(maxStreak, currentStreak), bestScore to
max(bestScore, score), adds the score to totalScore, updates the
per-category played/score-sum map, and persists the result. -/
theorem updateStats_spec (stats : Stats) (today yesterday : String)
    (cluesUsed : Nat) (score : Int) (category : String)
    (hdates : yesterday ≠ today) :
    (updateStats stats today yesterday cluesUsed score category true).1.currentStreak =
      specStreak stats.lastPlayedDate today yesterday stats.currentStreak ∧
    (updateStats stats today yesterday cluesUsed score category true).1.maxStreak =
      max stats.maxStreak
        (specStreak stats.lastPlayedDate today yesterday stats.currentStreak) ∧
    (updateStats stats today yesterday cluesUsed score category true).1.bestScore =
      max stats.bestScore score ∧
    (updateStats stats today yesterday cluesUsed score category true).1.totalScore =
      stats.totalScore + score ∧
    (updateStats stats today yesterday cluesUsed score category true).1.categoryStats =
      updateCat stats.categoryStats category score ∧
    lookupCat
      (updateStats stats today yesterday cluesUsed score category true).1.categoryStats
      category =
      some ⟨((lookupCat stats.categoryStats category).getD ⟨0, 0⟩).played + 1,
        ((lookupCat stats.categoryStats category).getD ⟨0, 0⟩).totalScore + score⟩ ∧
    (updateStats stats today yesterday cluesUsed score category true).2 = true := by
  have hbump := bumpClueDist_preserves
    { stats with
      played := stats.played + 1
      won := stats.won + 1
      totalScore := stats.totalScore + score
      bestScore := max stats.bestScore score } cluesUsed
  have hstreak :
      (updateStats stats today yesterday cluesUsed score category true).1.currentStreak =
        specStreak stats.lastPlayedDate today yesterday stats.currentStreak := by
    simp only [updateStats, specStreak]
    rcases hld : stats.lastPlayedDate with _ | d
    · simp
    · by_cases h1 : d = yesterday
      · have h2 : ¬d = today := by rw [h1]; exact hdates
        simp [h1, h2, hdates]
      · by_cases h2 : d = today
        · simp [h1, h2, hdates.symm]
        · simp [h1, h2]
  have hcats :
      (updateStats stats today yesterday cluesUsed score category true).1.categoryStats =
        updateCat stats.categoryStats category score := by
    simp only [updateStats]
    simp [hbump.2.2.2.2]
  refine ⟨hstreak, ?_, ?_, ?_, hcats, ?_, rfl⟩
  · rw [← hstreak]
    simp only [updateStats]
    simp [hbump.2.1]
  · simp only [updateStats]
    simp [hbump.2.2.1]
  · simp only [updateStats]
    simp [hbump.2.2.2.1]
  · rw [hcats, lookupCat_updateCat]

/-- Witness for C8: a concrete stats record whose lastPlayedDate is
yesterday; the winning update increments the streak. -/
theorem updateStats_spec_witness :
    ("2026-02-04" : String) ≠ "2026-02-05" ∧
    (updateStats
      { played := 3, won := 2, currentStreak := 2, maxStreak := 2,
        totalScore := 150, bestScore := 90,
        lastPlayedDate := some "2026-02-04", clueDist1 := 1, clueDist2 := 1,
        clueDist3 := 0, categoryStats := [("Countries", ⟨2, 150⟩)] }
      "2026-02-05" "2026-02-04" 2 80 "Countries" true).1.currentStreak =
      specStreak (some "2026-02-04") "2026-02-05" "2026-02-04" 2 := by
  constructor
  · decide
  · exact (updateStats_spec
      { played := 3, won := 2, currentStreak := 2, maxStreak := 2,
        totalScore := 150, bestScore := 90,
        lastPlayedDate := some "2026-02-04", clueDist1 := 1, clueDist2 := 1,
        clueDist3 := 0, categoryStats := [("Countries", ⟨2, 150⟩)] }
      "2026-02-05" "2026-02-04" 2 80 "Countries" (by decide)).1
